import Mathlib

/-!
Verification of the labtools frequency-response measurement core: the
single-frequency DFT extractor in `instruments/DS1054Z.py` and the sweep
driver in `tasks/freqresp.py`.  Floating-point values of the Python source
are modelled as real numbers; fallible code returns `Except`.
-/

open scoped BigOperators

namespace Labtools

/-- Python's built-in one-argument `round` on a real value: round half to
even, returning an integer. -/
noncomputable def pyRound (x : ℝ) : ℤ :=
  if Int.fract x < 1/2 then ⌊x⌋
  else if 1/2 < Int.fract x then ⌊x⌋ + 1
  else if Even ⌊x⌋ then ⌊x⌋ else ⌊x⌋ + 1

/-- Python's float `%` operator (floored modulo): `x % y = x - y * ⌊x / y⌋`,
matching CPython for a positive modulus. -/
noncomputable def pyMod (x y : ℝ) : ℝ := x - y * ↑⌊x / y⌋

/-- Phase combination of `measure_response` in `tasks/freqresp.py`:
`phase_delta = ((p1 - p2) + 180.0) % 360.0 - 180.0`. -/
noncomputable def phase_delta (p1 p2 : ℝ) : ℝ := pyMod ((p1 - p2) + 180) 360 - 180

/-- Errors raised by `DS1054Z.dft_at_freq`; both exception messages carry
the sample interval and the frequency. -/
inductive DftError where
  | insufficientResolution (sampleInterval freq : ℝ)
  | insufficientDuration (sampleInterval freq : ℝ)

/-- Single-bin DFT coefficient of `DS1054Z.dft_at_freq`:
`numpy.sum(numpy.exp(tau*1j*numpy.linspace(0, periods, n, endpoint=False)) * data[:n]) / n`,
where `linspace` with `endpoint=False` yields `periods * k / n` at index `k`. -/
noncomputable def dftCoeff (data : List ℝ) (periods n : ℕ) : ℂ :=
  (∑ k ∈ Finset.range n,
      Complex.exp (2 * (Real.pi : ℂ) * Complex.I * ((periods : ℂ) * (k : ℂ) / (n : ℂ)))
        * ((data.getD k 0 : ℝ) : ℂ)) / (n : ℂ)

/-- Embedding of `DS1054Z.dft_at_freq` (the part after fetching `data`):
computes amplitude and phase at `freq` from a sample buffer.
`numpy.degrees x = x * 180 / π` and `cmath.phase` is the complex argument. -/
noncomputable def dft_at_freq (data : List ℝ) (freq sampleInterval : ℝ) :
    Except DftError (ℝ × ℝ) :=
  let samples_per_period := pyRound ((1 / freq) / sampleInterval)
  if samples_per_period < 5 then
    .error (.insufficientResolution sampleInterval freq)
  else
    let periods := data.length / samples_per_period.toNat
    if periods < 1 then
      .error (.insufficientDuration sampleInterval freq)
    else
      let c := dftCoeff data periods (periods * samples_per_period.toNat)
      .ok (4 * Complex.abs c, Complex.arg c * 180 / Real.pi)

/-- Python `min(l, key = k)`: the first element attaining the least key.
Returns the junk value 0 for an empty list, where Python raises; every use
in the source is on a fixed nonempty list. -/
noncomputable def pyMinKey (key : ℝ → ℝ) : List ℝ → ℝ
  | [] => 0
  | x :: xs => xs.foldl (fun best y => if key y < key best then y else best) x

/-- The fixed 2-5-10 timebase list of `DS1054Z.timebases`. -/
def timebases : List ℝ :=
  [2e-9, 5e-9,
   1e-8, 2e-8, 5e-8,
   1e-7, 2e-7, 5e-7,
   1e-6, 2e-6, 5e-6,
   1e-5, 2e-5, 5e-5,
   1e-4, 2e-4, 5e-4,
   1e-3, 2e-3, 5e-3,
   1e-2, 2e-2, 5e-2,
   1e-1, 2e-1, 5e-1,
   1e-0, 2e-0, 5e-0,
   1e+1, 2e+1, 5e+1]

/-- The fixed vertical scale list of `DS1054Z.vertical_scales`. -/
def vertical_scales : List ℝ :=
  [1e-2, 2e-2, 5e-2,
   1e-1, 2e-1, 5e-1,
   1e-0, 2e-0, 5e-0,
   1e+1, 2e+1, 5e+1,
   1e+2]

/-- Value written by `DS1054Z.set_timebase` with default rounding:
`min(self.timebases, key = lambda x: abs(x - timebase))`. -/
noncomputable def set_timebase_sent (timebase : ℝ) : ℝ :=
  pyMinKey (fun x => |x - timebase|) timebases

/-- Value written by `DS1054Z.set_channel_scale` with default rounding:
`min(self.vertical_scales, key = lambda x: abs(x - scale))`. -/
noncomputable def set_channel_scale_sent (scale : ℝ) : ℝ :=
  pyMinKey (fun x => |x - scale|) vertical_scales

/-- One row yielded by `freqresp_iter` in `tasks/freqresp.py`. -/
structure ResultRow where
  freq : ℝ
  amplitude : ℝ
  dB : ℝ
  phase : ℝ

/-- The per-frequency loop of `freqresp_iter`: for each frequency in order
call `measure`, compute `dB = 10.0 * math.log10(a)` and yield a row.  A
failure of `measure` propagates out of the generator: the rows already
yielded stay with the consumer and no further row is produced.  The result
pairs the yielded rows with the escaped error, if any. -/
noncomputable def freqresp_rows {E : Type} (measure : ℝ → Except E (ℝ × ℝ)) :
    List ℝ → List ResultRow × Option E
  | [] => ([], none)
  | f :: fs =>
    match measure f with
    | .error e => ([], some e)
    | .ok (a, p) =>
      let rest := freqresp_rows measure fs
      (⟨f, a, 10 * Real.logb 10 a, p⟩ :: rest.1, rest.2)

/-- Commands issued by the measurement flow, at the level of the
driver calls appearing in `measure_response`. -/
inductive ScopeCmd where
  | awgSetFrequency (channel : ℕ) (freq : ℝ)
  | scopeRun
  | scopeStop
  | forceTrigger
  | setMemdepth (depth : ℕ)
  | setTimebase (timebase : ℝ)
  | setChannelScale (channel : ℕ) (scale : ℝ)
  | sleep (seconds : ℝ)
  | fetchData (channel : ℕ)
  | fetchDataRaw (channel : ℕ)

/-- Waveform data observable from the oscilloscope during one call of
`measure_response`: the screen buffers used while auto-ranging, the raw
buffers used for the DFT, and the sample interval. -/
structure ScopeEnv where
  screen1 : List ℝ
  screen2 : List ℝ
  raw1 : List ℝ
  raw2 : List ℝ
  sampleInterval : ℝ

/-- Peak absolute sample value, `np.max(np.abs(data))`.  The fold starts
from 0, which agrees with numpy on every nonempty buffer since the
absolute values are nonnegative. -/
noncomputable def peakAbs (data : List ℝ) : ℝ :=
  data.foldl (fun m x => max m |x|) 0

/-- Command trace of `measure_response` in `tasks/freqresp.py` as a
function of the sweep point, settle delay, autorange flag and observed
waveforms.  `fetch_data_raw` internally stops the capture again; that is
folded into the `fetchDataRaw` step. -/
noncomputable def measure_response_trace (freq delay : ℝ) (autorange : Bool)
    (env : ScopeEnv) (memdepth : ℕ := 120000) : List ScopeCmd :=
  let d := delay + 40 / freq
  [.awgSetFrequency 1 freq, .scopeRun, .setMemdepth memdepth, .setTimebase (1 / freq)]
    ++ (if autorange then
          [.setChannelScale 1 1, .setChannelScale 2 1, .forceTrigger, .sleep d,
           .scopeStop, .fetchData 1, .fetchData 2,
           .setChannelScale 1 (peakAbs env.screen1 / 4),
           .setChannelScale 2 (peakAbs env.screen2 / 4), .scopeRun]
        else [])
    ++ [.forceTrigger, .sleep d, .scopeStop, .fetchDataRaw 1, .fetchDataRaw 2]

/-- Value returned by `measure_response`: DFT both channels on the raw
buffers, then combine into `(a1 / a2, phase_delta)`. -/
noncomputable def measure_response (freq : ℝ) (env : ScopeEnv) :
    Except DftError (ℝ × ℝ) := do
  let (a1, p1) ← dft_at_freq env.raw1 freq env.sampleInterval
  let (a2, p2) ← dft_at_freq env.raw2 freq env.sampleInterval
  pure (a1 / a2, phase_delta p1 p2)

/-- Rounding to `n` significant figures.  Modelled from the spec: the
source calls the external `sigfig` library (`sigfig.round(x, sigfigs = n)`),
which the spec describes as rounding each frequency to a fixed number of
significant figures; for a nonzero value this scales by the power of ten
that exposes `n` digits, rounds to an integer, and scales back. -/
noncomputable def sigfigRound (x : ℝ) (n : ℤ) : ℝ :=
  if x = 0 then 0
  else (pyRound (x / (10 : ℝ) ^ (⌊Real.logb 10 |x|⌋ - n + 1)) : ℝ) *
         (10 : ℝ) ^ (⌊Real.logb 10 |x|⌋ - n + 1)

/-- Logarithmic frequency-list generation of `freqresp_iter`. -/
noncomputable def logFreqs (freq_min freq_max log_stepsdec : ℝ) : List ℝ :=
  let sigfigs : ℤ := ⌈log_stepsdec / 10 + 1⌉
  let base : ℝ := (10 : ℝ) ^ ((1 : ℝ) / log_stepsdec)
  let steps : ℤ := ⌈Real.log (freq_max / freq_min) / Real.log base⌉
  let first : ℝ := Real.log freq_min / Real.log base
  (List.range (steps + 1).toNat).map fun (x : ℕ) => sigfigRound (base ^ (first + (x : ℝ))) sigfigs

/-- Linear frequency-list generation, `np.arange(freq_min, freq_max, ival)`. -/
noncomputable def arange (start stop step : ℝ) : List ℝ :=
  (List.range ⌈(stop - start) / step⌉.toNat).map fun (i : ℕ) => start + step * (i : ℝ)

/-- The frequency list built by `freqresp_iter`: linear when a (truthy,
i.e. nonzero) `lin_interval` is given, logarithmic otherwise. -/
noncomputable def freqresp_freqs (freq_min freq_max log_stepsdec : ℝ)
    (lin_interval : Option ℝ) : List ℝ :=
  match lin_interval with
  | some ival =>
      if ival = 0 then logFreqs freq_min freq_max log_stepsdec
      else arange freq_min freq_max ival
  | none => logFreqs freq_min freq_max log_stepsdec

/-- Full embedding of `freqresp_iter`: generate the frequency list, then
run the per-point measurement loop. -/
noncomputable def freqresp_iter {E : Type} (freq_min freq_max log_stepsdec : ℝ)
    (lin_interval : Option ℝ) (measure : ℝ → Except E (ℝ × ℝ)) :
    List ResultRow × Option E :=
  freqresp_rows measure (freqresp_freqs freq_min freq_max log_stepsdec lin_interval)

/-- Integral reals round to themselves. -/
lemma pyRound_intCast (n : ℤ) : pyRound (n : ℝ) = n := by
  unfold pyRound
  rw [Int.fract_intCast, Int.floor_intCast]
  norm_num

lemma pyRound_ofNat (n : ℕ) : pyRound (n : ℝ) = n := by
  have := pyRound_intCast (n : ℤ)
  rwa [Int.cast_natCast] at this

/-- The resolution error occurs exactly when `samples_per_period < 5`. -/
lemma dft_resolution_iff (data : List ℝ) (freq dt : ℝ) :
    dft_at_freq data freq dt = .error (.insufficientResolution dt freq) ↔
      pyRound ((1 / freq) / dt) < 5 := by
  simp only [dft_at_freq]
  split_ifs with h1 h2 <;> simp_all

/-- Given enough resolution, the duration error occurs exactly when fewer
than one whole period was captured. -/
lemma dft_duration_iff (data : List ℝ) (freq dt : ℝ)
    (h5 : 5 ≤ pyRound ((1 / freq) / dt)) :
    dft_at_freq data freq dt = .error (.insufficientDuration dt freq) ↔
      data.length / (pyRound ((1 / freq) / dt)).toNat < 1 := by
  simp only [dft_at_freq]
  split_ifs with h1 h2 <;> simp_all <;> omega

/-- With enough resolution and at least one whole period, `dft_at_freq`
returns the pair `(4 * |c|, degrees (arg c))` built from the single-bin
DFT coefficient `c`. -/
lemma dft_ok (data : List ℝ) (freq dt : ℝ)
    (h5 : 5 ≤ pyRound ((1 / freq) / dt))
    (h1 : 1 ≤ data.length / (pyRound ((1 / freq) / dt)).toNat) :
    dft_at_freq data freq dt =
      .ok (4 * Complex.abs (dftCoeff data
              (data.length / (pyRound ((1 / freq) / dt)).toNat)
              ((data.length / (pyRound ((1 / freq) / dt)).toNat) *
                (pyRound ((1 / freq) / dt)).toNat)),
           Complex.arg (dftCoeff data
              (data.length / (pyRound ((1 / freq) / dt)).toNat)
              ((data.length / (pyRound ((1 / freq) / dt)).toNat) *
                (pyRound ((1 / freq) / dt)).toNat)) * 180 / Real.pi) := by
  simp only [dft_at_freq]
  split_ifs with h1 h2
  · omega
  · omega
  · rfl

/-- For a positive modulus the Python `%` result is nonnegative. -/
lemma pyMod_nonneg (x : ℝ) {y : ℝ} (hy : 0 < y) : 0 ≤ pyMod x y := by
  have h := Int.fract_nonneg (x / y)
  have : pyMod x y = y * Int.fract (x / y) := by
    unfold pyMod Int.fract
    field_simp
  rw [this]
  positivity

/-- For a positive modulus the Python `%` result is below the modulus. -/
lemma pyMod_lt (x : ℝ) {y : ℝ} (hy : 0 < y) : pyMod x y < y := by
  have h := Int.fract_lt_one (x / y)
  have heq : pyMod x y = y * Int.fract (x / y) := by
    unfold pyMod Int.fract
    field_simp
  rw [heq]
  calc y * Int.fract (x / y) < y * 1 := by
        exact mul_lt_mul_of_pos_left h hy
    _ = y := mul_one y

/-- Evaluation helper for `pyMod` at arguments with a known floor. -/
lemma pyMod_eval {x y : ℝ} (n : ℤ) (h1 : (n : ℝ) * y ≤ x) (h2 : x < (n + 1) * y)
    (hy : 0 < y) : pyMod x y = x - y * n := by
  have hfloor : ⌊x / y⌋ = n := by
    rw [Int.floor_eq_iff]
    constructor
    · rw [le_div_iff hy]
      exact h1
    · rw [div_lt_iff hy]
      push_cast
      exact h2
  unfold pyMod
  rw [hfloor]

/-- Wrapped phase difference is at least −180. -/
lemma phase_delta_lower (p1 p2 : ℝ) : -180 ≤ phase_delta p1 p2 := by
  unfold phase_delta
  have := pyMod_nonneg ((p1 - p2) + 180) (y := 360) (by norm_num)
  linarith

/-- Wrapped phase difference is below 180. -/
lemma phase_delta_upper (p1 p2 : ℝ) : phase_delta p1 p2 < 180 := by
  unfold phase_delta
  have := pyMod_lt ((p1 - p2) + 180) (y := 360) (by norm_num)
  linarith

/-- Concrete wrap: phases 170 and −170 combine to −20. -/
lemma phase_delta_170 : phase_delta 170 (-170) = -20 := by
  unfold phase_delta
  rw [show (170 : ℝ) - (-170) + 180 = 520 by norm_num,
      pyMod_eval 1 (by norm_num) (by norm_num) (by norm_num)]
  norm_num

/-- Concrete wrap at the edge: a raw difference of 180 wraps to −180,
which lies outside the half-open interval (−180, 180]. -/
lemma phase_delta_edge : phase_delta 180 0 = -180 := by
  unfold phase_delta
  rw [show (180 : ℝ) - 0 + 180 = 360 by norm_num,
      pyMod_eval 1 (by norm_num) (by norm_num) (by norm_num)]
  norm_num

lemma pyMinKey_foldl_mem (key : ℝ → ℝ) (l : List ℝ) (x0 : ℝ) :
    l.foldl (fun best y => if key y < key best then y else best) x0 ∈ x0 :: l := by
  induction l generalizing x0 with
  | nil => simp
  | cons a t ih =>
    simp only [List.foldl_cons]
    rcases List.mem_cons.mp (ih (if key a < key x0 then a else x0)) with h | h
    · rw [h]
      split
      · exact List.mem_cons_of_mem _ (List.mem_cons_self _ _)
      · exact List.mem_cons_self _ _
    · exact List.mem_cons_of_mem _ (List.mem_cons_of_mem _ h)

lemma pyMinKey_foldl_le (key : ℝ → ℝ) (l : List ℝ) (x0 : ℝ) :
    ∀ y ∈ x0 :: l,
      key (l.foldl (fun best z => if key z < key best then z else best) x0) ≤ key y := by
  induction l generalizing x0 with
  | nil => simp
  | cons a t ih =>
    intro y hy
    simp only [List.foldl_cons]
    have hstep : key (if key a < key x0 then a else x0) ≤ key x0 ∧
        key (if key a < key x0 then a else x0) ≤ key a := by
      split
      · exact ⟨le_of_lt ‹_›, le_refl _⟩
      · exact ⟨le_refl _, le_of_not_lt ‹_›⟩
    have hbase := ih (if key a < key x0 then a else x0) _ (List.mem_cons_self _ _)
    rcases List.mem_cons.mp hy with rfl | hy'
    · exact le_trans hbase hstep.1
    · rcases List.mem_cons.mp hy' with rfl | hy''
      · exact le_trans hbase hstep.2
      · exact ih _ y (List.mem_cons_of_mem _ hy'')

/-- The Python `min` with key returns a member of a nonempty list. -/
lemma pyMinKey_mem (key : ℝ → ℝ) {l : List ℝ} (h : l ≠ []) : pyMinKey key l ∈ l := by
  cases l with
  | nil => exact absurd rfl h
  | cons x xs => exact pyMinKey_foldl_mem key xs x

/-- The Python `min` with key minimises the key over the list. -/
lemma pyMinKey_le (key : ℝ → ℝ) {l : List ℝ} (y : ℝ) (hy : y ∈ l) :
    key (pyMinKey key l) ≤ key y := by
  cases l with
  | nil => simp at hy
  | cons x xs => exact pyMinKey_foldl_le key xs x y hy

/-- If the seed has a key no larger than every list element's, the fold
keeps the seed (Python `min` keeps the earliest minimiser). -/
lemma pyMinKey_foldl_of_le (key : ℝ → ℝ) (l : List ℝ) (x0 : ℝ)
    (h : ∀ y ∈ l, key x0 ≤ key y) :
    l.foldl (fun best y => if key y < key best then y else best) x0 = x0 := by
  induction l with
  | nil => rfl
  | cons a t ih =>
    simp only [List.foldl_cons]
    rw [if_neg (not_lt.mpr (h a (List.mem_cons_self _ _)))]
    exact ih fun y hy => h y (List.mem_cons_of_mem _ hy)

/-- If `m` occurs in the list with a key strictly below the seed's key and
every other element's key, the fold returns `m`. -/
lemma pyMinKey_foldl_of_strict (key : ℝ → ℝ) (l : List ℝ) (x0 m : ℝ)
    (hx0 : key m < key x0) (hm : m ∈ l)
    (hall : ∀ y ∈ l, y = m ∨ key m < key y) :
    l.foldl (fun best y => if key y < key best then y else best) x0 = m := by
  induction l generalizing x0 with
  | nil => simp at hm
  | cons a t ih =>
    simp only [List.foldl_cons]
    rcases hall a (List.mem_cons_self _ _) with ha | ha
    · subst ha
      rw [if_pos hx0]
      apply pyMinKey_foldl_of_le
      intro y hy
      rcases hall y (List.mem_cons_of_mem _ hy) with h | h
      · rw [h]
      · exact le_of_lt h
    · have hm' : m ∈ t := by
        rcases List.mem_cons.mp hm with h | h
        · subst h
          exact absurd ha (lt_irrefl _)
        · exact h
      have hnext : key m < key (if key a < key x0 then a else x0) := by
        split <;> assumption
      exact ih _ hnext hm' fun y hy => hall y (List.mem_cons_of_mem _ hy)

lemma vertical_scales_pos : ∀ x ∈ vertical_scales, 0 < x := by
  intro x hx
  fin_cases hx <;> norm_num

lemma timebases_pos : ∀ x ∈ timebases, 0 < x := by
  intro x hx
  fin_cases hx <;> norm_num

/-- The scale sent belongs to the fixed list. -/
lemma set_channel_scale_sent_mem (s : ℝ) : set_channel_scale_sent s ∈ vertical_scales :=
  pyMinKey_mem _ (by simp [vertical_scales])

/-- The scale sent minimises the distance to the request over the list. -/
lemma set_channel_scale_sent_min (s : ℝ) :
    ∀ y ∈ vertical_scales, |set_channel_scale_sent s - s| ≤ |y - s| := by
  intro y hy
  simpa [set_channel_scale_sent] using pyMinKey_le (fun x => |x - s|) y hy

/-- The scale sent is always positive. -/
lemma set_channel_scale_sent_pos (s : ℝ) : 0 < set_channel_scale_sent s :=
  vertical_scales_pos _ (set_channel_scale_sent_mem s)

lemma set_timebase_sent_mem (t : ℝ) : set_timebase_sent t ∈ timebases :=
  pyMinKey_mem _ (by simp [timebases])

lemma set_timebase_sent_min (t : ℝ) :
    ∀ y ∈ timebases, |set_timebase_sent t - t| ≤ |y - t| := by
  intro y hy
  simpa [set_timebase_sent] using pyMinKey_le (fun x => |x - t|) y hy

lemma set_timebase_sent_pos (t : ℝ) : 0 < set_timebase_sent t :=
  timebases_pos _ (set_timebase_sent_mem t)

/-- A requested scale of 0 rounds to the smallest list entry, 0.01. -/
lemma set_channel_scale_sent_zero : set_channel_scale_sent 0 = 1e-2 := by
  unfold set_channel_scale_sent vertical_scales pyMinKey
  apply pyMinKey_foldl_of_le
  intro y hy
  fin_cases hy <;> rw [sub_zero, sub_zero, abs_of_pos (by norm_num),
    abs_of_pos (by norm_num)] <;> norm_num

/-- A requested scale of 1.0 rounds to the list entry 1.0 itself. -/
lemma set_channel_scale_sent_one : set_channel_scale_sent 1 = 1 := by
  unfold set_channel_scale_sent vertical_scales pyMinKey
  apply pyMinKey_foldl_of_strict (m := 1)
  · rw [sub_self, abs_zero]
    exact abs_pos.mpr (by norm_num)
  · norm_num
  · intro y hy
    fin_cases hy
    all_goals first
      | (left; norm_num; done)
      | (right
         rw [sub_self, abs_zero]
         exact abs_pos.mpr (by norm_num))

/-- When `measure` succeeds everywhere, the sweep yields one row per
frequency, in order, with the dB field computed from the returned ratio. -/
lemma freqresp_rows_ok {E : Type} (measure : ℝ → Except E (ℝ × ℝ))
    (freqs : List ℝ)
    (h : ∀ f ∈ freqs, ∃ a p, measure f = .ok (a, p)) :
    (freqresp_rows measure freqs).2 = none ∧
    (freqresp_rows measure freqs).1.length = freqs.length ∧
    ∀ i, i < freqs.length →
      ∀ a p, measure (freqs.getD i 0) = .ok (a, p) →
        (freqresp_rows measure freqs).1.getD i ⟨0, 0, 0, 0⟩ =
          ⟨freqs.getD i 0, a, 10 * Real.logb 10 a, p⟩ := by
  induction freqs with
  | nil =>
    refine ⟨rfl, rfl, ?_⟩
    intro i hi
    simp at hi
  | cons f fs ih =>
    obtain ⟨a, p, hf⟩ := h f (List.mem_cons_self _ _)
    have ih' := ih fun g hg => h g (List.mem_cons_of_mem _ hg)
    refine ⟨?_, ?_, ?_⟩
    · simp only [freqresp_rows, hf]
      exact ih'.1
    · simp only [freqresp_rows, hf, List.length_cons]
      rw [ih'.2.1]
    · intro i hi a' p' hi'
      cases i with
      | zero =>
        simp only [List.getD_cons_zero] at hi' ⊢
        rw [hf] at hi'
        obtain ⟨rfl, rfl⟩ : a = a' ∧ p = p' := by
          have := Except.ok.inj hi'
          exact ⟨congrArg Prod.fst this, congrArg Prod.snd this⟩
        simp [freqresp_rows, hf]
      | succ j =>
        simp only [List.getD_cons_succ] at hi' ⊢
        simp only [freqresp_rows, hf]
        exact ih'.2.2 j (by simpa using hi) a' p' hi'

/-- When `measure` succeeds on every frequency before position `k` and
fails at position `k`, the sweep consists of exactly the rows of the
successful prefix and surfaces the error value raised at position `k`. -/
lemma freqresp_rows_fail {E : Type} (measure : ℝ → Except E (ℝ × ℝ))
    (freqs : List ℝ) (k : ℕ) (e : E) (hk : k < freqs.length)
    (hpre : ∀ i, i < k → ∃ a p, measure (freqs.getD i 0) = .ok (a, p))
    (hfail : measure (freqs.getD k 0) = .error e) :
    freqresp_rows measure freqs =
      ((freqresp_rows measure (freqs.take k)).1, some e) := by
  induction freqs generalizing k with
  | nil => simp at hk
  | cons f fs ih =>
    cases k with
    | zero =>
      simp only [List.getD_cons_zero] at hfail
      simp [freqresp_rows, hfail]
    | succ j =>
      obtain ⟨a, p, hf⟩ := hpre 0 (Nat.succ_pos j)
      simp only [List.getD_cons_zero] at hf
      have ih' := ih j (by simpa using hk)
        (fun i hi => by simpa using hpre (i + 1) (by omega))
        (by simpa using hfail)
      simp only [freqresp_rows, hf, List.take_succ_cons]
      rw [ih']

/-- Comparison with a real number from below transfers through the 10th
power for tenth-integral exponents. -/
lemma lt_rpow_tenth_iff {a : ℝ} (p : ℕ) (ha : 0 < a) :
    a < (10 : ℝ) ^ ((p : ℝ) / 10) ↔ a ^ (10 : ℕ) < (10 : ℝ) ^ p := by
  have hb : (0 : ℝ) < (10 : ℝ) ^ ((p : ℝ) / 10) := Real.rpow_pos_of_pos (by norm_num) _
  have hkey : ((10 : ℝ) ^ ((p : ℝ) / 10)) ^ (10 : ℕ) = (10 : ℝ) ^ p := by
    rw [← Real.rpow_natCast ((10 : ℝ) ^ ((p : ℝ) / 10)) 10, ← Real.rpow_mul (by norm_num)]
    rw [show (p : ℝ) / 10 * (10 : ℕ) = (p : ℕ) by push_cast; ring]
    exact Real.rpow_natCast 10 p
  rw [← hkey]
  exact (pow_lt_pow_iff_left ha.le hb.le (by norm_num)).symm

/-- Comparison with a real number from above transfers through the 10th
power for tenth-integral exponents. -/
lemma rpow_tenth_lt_iff {a : ℝ} (p : ℕ) (ha : 0 < a) :
    (10 : ℝ) ^ ((p : ℝ) / 10) < a ↔ (10 : ℝ) ^ p < a ^ (10 : ℕ) := by
  have hb : (0 : ℝ) < (10 : ℝ) ^ ((p : ℝ) / 10) := Real.rpow_pos_of_pos (by norm_num) _
  have hkey : ((10 : ℝ) ^ ((p : ℝ) / 10)) ^ (10 : ℕ) = (10 : ℝ) ^ p := by
    rw [← Real.rpow_natCast ((10 : ℝ) ^ ((p : ℝ) / 10)) 10, ← Real.rpow_mul (by norm_num)]
    rw [show (p : ℝ) / 10 * (10 : ℕ) = (p : ℕ) by push_cast; ring]
    exact Real.rpow_natCast 10 p
  rw [← hkey]
  exact (pow_lt_pow_iff_left hb.le ha.le (by norm_num)).symm

/-- Python `round` for a value in `[m, m + 1/2)`. -/
lemma pyRound_eq_of_lt_half {x : ℝ} (m : ℤ) (h1 : (m : ℝ) ≤ x)
    (h2 : x < m + 1/2) : pyRound x = m := by
  have hf : ⌊x⌋ = m := by
    rw [Int.floor_eq_iff]
    exact ⟨h1, by push_cast; linarith⟩
  unfold pyRound
  rw [Int.fract, hf, if_pos (show x - (m : ℝ) < 1/2 by push_cast at *; linarith)]

/-- Python `round` for a value in `(m + 1/2, m + 1)`. -/
lemma pyRound_eq_of_half_lt {x : ℝ} (m : ℤ) (h1 : (m : ℝ) + 1/2 < x)
    (h2 : x < m + 1) : pyRound x = m + 1 := by
  have hf : ⌊x⌋ = m := by
    rw [Int.floor_eq_iff]
    exact ⟨by push_cast at *; linarith, by push_cast at *; linarith⟩
  unfold pyRound
  rw [Int.fract, hf, if_neg (show ¬ x - (m : ℝ) < 1/2 by push_cast at *; linarith),
      if_pos (show (1:ℝ)/2 < x - (m : ℝ) by push_cast at *; linarith)]

/-- Rounded mantissa of `10^(10/10)`. -/
lemma mant0 : pyRound ((10 : ℝ) ^ (((10 * 1 + 0 : ℕ) : ℝ) / 10)) = 10 := by
  rw [show (((10 * 1 + 0 : ℕ) : ℝ) / 10) = (1 : ℝ) by norm_num, Real.rpow_one]
  rw [show (10 : ℝ) = ((10 : ℤ) : ℝ) by norm_num]
  exact pyRound_intCast 10

/-- Rounded mantissa of `10^(11/10) ≈ 12.59`. -/
lemma mant1 : pyRound ((10 : ℝ) ^ (((10 * 1 + 1 : ℕ) : ℝ) / 10)) = 13 := by
  rw [show ((10 * 1 + 1 : ℕ) : ℝ) = ((11 : ℕ) : ℝ) by norm_num]
  have h1 : ((12 : ℤ) : ℝ) + 1/2 < (10 : ℝ) ^ (((11 : ℕ) : ℝ) / 10) := by
    rw [show ((12 : ℤ) : ℝ) + 1/2 = 12.5 by norm_num, lt_rpow_tenth_iff 11 (by norm_num)]
    norm_num
  have h2 : (10 : ℝ) ^ (((11 : ℕ) : ℝ) / 10) < ((12 : ℤ) : ℝ) + 1 := by
    rw [show ((12 : ℤ) : ℝ) + 1 = 13 by norm_num, rpow_tenth_lt_iff 11 (by norm_num)]
    norm_num
  rw [pyRound_eq_of_half_lt 12 h1 h2]
  norm_num

/-- Rounded mantissa of `10^(12/10) ≈ 15.85`. -/
lemma mant2 : pyRound ((10 : ℝ) ^ (((10 * 1 + 2 : ℕ) : ℝ) / 10)) = 16 := by
  rw [show ((10 * 1 + 2 : ℕ) : ℝ) = ((12 : ℕ) : ℝ) by norm_num]
  have h1 : ((15 : ℤ) : ℝ) + 1/2 < (10 : ℝ) ^ (((12 : ℕ) : ℝ) / 10) := by
    rw [show ((15 : ℤ) : ℝ) + 1/2 = 15.5 by norm_num, lt_rpow_tenth_iff 12 (by norm_num)]
    norm_num
  have h2 : (10 : ℝ) ^ (((12 : ℕ) : ℝ) / 10) < ((15 : ℤ) : ℝ) + 1 := by
    rw [show ((15 : ℤ) : ℝ) + 1 = 16 by norm_num, rpow_tenth_lt_iff 12 (by norm_num)]
    norm_num
  rw [pyRound_eq_of_half_lt 15 h1 h2]
  norm_num

/-- Rounded mantissa of `10^(13/10) ≈ 19.95`. -/
lemma mant3 : pyRound ((10 : ℝ) ^ (((10 * 1 + 3 : ℕ) : ℝ) / 10)) = 20 := by
  rw [show ((10 * 1 + 3 : ℕ) : ℝ) = ((13 : ℕ) : ℝ) by norm_num]
  have h1 : ((19 : ℤ) : ℝ) + 1/2 < (10 : ℝ) ^ (((13 : ℕ) : ℝ) / 10) := by
    rw [show ((19 : ℤ) : ℝ) + 1/2 = 19.5 by norm_num, lt_rpow_tenth_iff 13 (by norm_num)]
    norm_num
  have h2 : (10 : ℝ) ^ (((13 : ℕ) : ℝ) / 10) < ((19 : ℤ) : ℝ) + 1 := by
    rw [show ((19 : ℤ) : ℝ) + 1 = 20 by norm_num, rpow_tenth_lt_iff 13 (by norm_num)]
    norm_num
  rw [pyRound_eq_of_half_lt 19 h1 h2]
  norm_num

/-- Rounded mantissa of `10^(14/10) ≈ 25.12`. -/
lemma mant4 : pyRound ((10 : ℝ) ^ (((10 * 1 + 4 : ℕ) : ℝ) / 10)) = 25 := by
  rw [show ((10 * 1 + 4 : ℕ) : ℝ) = ((14 : ℕ) : ℝ) by norm_num]
  have h1 : ((25 : ℤ) : ℝ) ≤ (10 : ℝ) ^ (((14 : ℕ) : ℝ) / 10) := by
    refine le_of_lt ?_
    rw [show ((25 : ℤ) : ℝ) = 25 by norm_num, lt_rpow_tenth_iff 14 (by norm_num)]
    norm_num
  have h2 : (10 : ℝ) ^ (((14 : ℕ) : ℝ) / 10) < ((25 : ℤ) : ℝ) + 1/2 := by
    rw [show ((25 : ℤ) : ℝ) + 1/2 = 25.5 by norm_num, rpow_tenth_lt_iff 14 (by norm_num)]
    norm_num
  rw [pyRound_eq_of_lt_half 25 h1 h2]

/-- Rounded mantissa of `10^(15/10) ≈ 31.62`. -/
lemma mant5 : pyRound ((10 : ℝ) ^ (((10 * 1 + 5 : ℕ) : ℝ) / 10)) = 32 := by
  rw [show ((10 * 1 + 5 : ℕ) : ℝ) = ((15 : ℕ) : ℝ) by norm_num]
  have h1 : ((31 : ℤ) : ℝ) + 1/2 < (10 : ℝ) ^ (((15 : ℕ) : ℝ) / 10) := by
    rw [show ((31 : ℤ) : ℝ) + 1/2 = 31.5 by norm_num, lt_rpow_tenth_iff 15 (by norm_num)]
    norm_num
  have h2 : (10 : ℝ) ^ (((15 : ℕ) : ℝ) / 10) < ((31 : ℤ) : ℝ) + 1 := by
    rw [show ((31 : ℤ) : ℝ) + 1 = 32 by norm_num, rpow_tenth_lt_iff 15 (by norm_num)]
    norm_num
  rw [pyRound_eq_of_half_lt 31 h1 h2]
  norm_num

/-- Rounded mantissa of `10^(16/10) ≈ 39.81`. -/
lemma mant6 : pyRound ((10 : ℝ) ^ (((10 * 1 + 6 : ℕ) : ℝ) / 10)) = 40 := by
  rw [show ((10 * 1 + 6 : ℕ) : ℝ) = ((16 : ℕ) : ℝ) by norm_num]
  have h1 : ((39 : ℤ) : ℝ) + 1/2 < (10 : ℝ) ^ (((16 : ℕ) : ℝ) / 10) := by
    rw [show ((39 : ℤ) : ℝ) + 1/2 = 39.5 by norm_num, lt_rpow_tenth_iff 16 (by norm_num)]
    norm_num
  have h2 : (10 : ℝ) ^ (((16 : ℕ) : ℝ) / 10) < ((39 : ℤ) : ℝ) + 1 := by
    rw [show ((39 : ℤ) : ℝ) + 1 = 40 by norm_num, rpow_tenth_lt_iff 16 (by norm_num)]
    norm_num
  rw [pyRound_eq_of_half_lt 39 h1 h2]
  norm_num

/-- Rounded mantissa of `10^(17/10) ≈ 50.12`. -/
lemma mant7 : pyRound ((10 : ℝ) ^ (((10 * 1 + 7 : ℕ) : ℝ) / 10)) = 50 := by
  rw [show ((10 * 1 + 7 : ℕ) : ℝ) = ((17 : ℕ) : ℝ) by norm_num]
  have h1 : ((50 : ℤ) : ℝ) ≤ (10 : ℝ) ^ (((17 : ℕ) : ℝ) / 10) := by
    refine le_of_lt ?_
    rw [show ((50 : ℤ) : ℝ) = 50 by norm_num, lt_rpow_tenth_iff 17 (by norm_num)]
    norm_num
  have h2 : (10 : ℝ) ^ (((17 : ℕ) : ℝ) / 10) < ((50 : ℤ) : ℝ) + 1/2 := by
    rw [show ((50 : ℤ) : ℝ) + 1/2 = 50.5 by norm_num, rpow_tenth_lt_iff 17 (by norm_num)]
    norm_num
  rw [pyRound_eq_of_lt_half 50 h1 h2]

/-- Rounded mantissa of `10^(18/10) ≈ 63.10`. -/
lemma mant8 : pyRound ((10 : ℝ) ^ (((10 * 1 + 8 : ℕ) : ℝ) / 10)) = 63 := by
  rw [show ((10 * 1 + 8 : ℕ) : ℝ) = ((18 : ℕ) : ℝ) by norm_num]
  have h1 : ((63 : ℤ) : ℝ) ≤ (10 : ℝ) ^ (((18 : ℕ) : ℝ) / 10) := by
    refine le_of_lt ?_
    rw [show ((63 : ℤ) : ℝ) = 63 by norm_num, lt_rpow_tenth_iff 18 (by norm_num)]
    norm_num
  have h2 : (10 : ℝ) ^ (((18 : ℕ) : ℝ) / 10) < ((63 : ℤ) : ℝ) + 1/2 := by
    rw [show ((63 : ℤ) : ℝ) + 1/2 = 63.5 by norm_num, rpow_tenth_lt_iff 18 (by norm_num)]
    norm_num
  rw [pyRound_eq_of_lt_half 63 h1 h2]

/-- Rounded mantissa of `10^(19/10) ≈ 79.43`. -/
lemma mant9 : pyRound ((10 : ℝ) ^ (((10 * 1 + 9 : ℕ) : ℝ) / 10)) = 79 := by
  rw [show ((10 * 1 + 9 : ℕ) : ℝ) = ((19 : ℕ) : ℝ) by norm_num]
  have h1 : ((79 : ℤ) : ℝ) ≤ (10 : ℝ) ^ (((19 : ℕ) : ℝ) / 10) := by
    refine le_of_lt ?_
    rw [show ((79 : ℤ) : ℝ) = 79 by norm_num, lt_rpow_tenth_iff 19 (by norm_num)]
    norm_num
  have h2 : (10 : ℝ) ^ (((19 : ℕ) : ℝ) / 10) < ((79 : ℤ) : ℝ) + 1/2 := by
    rw [show ((79 : ℤ) : ℝ) + 1/2 = 79.5 by norm_num, rpow_tenth_lt_iff 19 (by norm_num)]
    norm_num
  rw [pyRound_eq_of_lt_half 79 h1 h2]

/-- Evaluation of the significant-figure rounding at `10^((10k+r)/10)`
with two significant figures: the mantissa `10^((10+r)/10)` is rounded to
an integer and scaled by `10^(k-1)`. -/
lemma sigfigRound_tenpow (k : ℕ) (hk : 1 ≤ k) (r : ℕ) (hr : r < 10) :
    sigfigRound ((10 : ℝ) ^ (((10 * k + r : ℕ) : ℝ) / 10)) 2 =
      (pyRound ((10 : ℝ) ^ (((10 * 1 + r : ℕ) : ℝ) / 10)) : ℝ) *
        (10 : ℝ) ^ ((k : ℤ) - 1) := by
  have hx : (0 : ℝ) < (10 : ℝ) ^ (((10 * k + r : ℕ) : ℝ) / 10) :=
    Real.rpow_pos_of_pos (by norm_num) _
  have hlogb : Real.logb 10 ((10 : ℝ) ^ (((10 * k + r : ℕ) : ℝ) / 10)) =
      ((10 * k + r : ℕ) : ℝ) / 10 :=
    Real.logb_rpow (by norm_num) (by norm_num)
  have hfl : ⌊((10 * k + r : ℕ) : ℝ) / 10⌋ = (k : ℤ) := by
    have hr' : (r : ℝ) < 10 := by exact_mod_cast hr
    have hr0 : (0 : ℝ) ≤ (r : ℝ) := Nat.cast_nonneg r
    rw [Int.floor_eq_iff]
    constructor
    · rw [le_div_iff₀ (by norm_num)]
      push_cast
      linarith
    · rw [div_lt_iff₀ (by norm_num)]
      push_cast
      linarith
  have hzp : (10 : ℝ) ^ ((k : ℤ) - 2 + 1) = (10 : ℝ) ^ ((k : ℝ) - 1) := by
    rw [show (k : ℤ) - 2 + 1 = (k : ℤ) - 1 by ring, ← Real.rpow_intCast 10 ((k : ℤ) - 1)]
    norm_num
  have hdiv : (10 : ℝ) ^ (((10 * k + r : ℕ) : ℝ) / 10) / (10 : ℝ) ^ ((k : ℝ) - 1) =
      (10 : ℝ) ^ (((10 * 1 + r : ℕ) : ℝ) / 10) := by
    rw [← Real.rpow_sub (by norm_num)]
    congr 1
    push_cast
    ring
  unfold sigfigRound
  rw [if_neg (ne_of_gt hx), abs_of_pos hx, hlogb, hfl, hzp, hdiv,
      show (10 : ℝ) ^ ((k : ℝ) - 1) = (10 : ℝ) ^ ((k : ℤ) - 1) by
        rw [← Real.rpow_intCast 10 ((k : ℤ) - 1)]; norm_num]

/-- The explicit value of the default logarithmic sweep list. -/
lemma logFreqs_default_eval :
    logFreqs 100 100000 10 =
      [100, 130, 160, 200, 250, 320, 400, 500, 630, 790,
       1000, 1300, 1600, 2000, 2500, 3200, 4000, 5000, 6300, 7900,
       10000, 13000, 16000, 20000, 25000, 32000, 40000, 50000, 63000, 79000,
       100000] := by
  have hl10 : Real.log (10 : ℝ) ≠ 0 := ne_of_gt (Real.log_pos (by norm_num))
  have hbase : Real.log ((10 : ℝ) ^ ((1 : ℝ) / 10)) = (1 / 10) * Real.log 10 :=
    Real.log_rpow (by norm_num) _
  have hsig : ⌈(10 : ℝ) / 10 + 1⌉ = 2 := by norm_num
  have hsteps : ⌈Real.log ((100000 : ℝ) / 100) / Real.log ((10 : ℝ) ^ ((1 : ℝ) / 10))⌉ =
      (30 : ℤ) := by
    rw [show ((100000 : ℝ) / 100) = 10 ^ (3 : ℕ) by norm_num, Real.log_pow, hbase]
    rw [show ((3 : ℕ) : ℝ) * Real.log 10 / (1 / 10 * Real.log 10) = 30 by
      field_simp
      ring]
    norm_num
  have hfirst : Real.log (100 : ℝ) / Real.log ((10 : ℝ) ^ ((1 : ℝ) / 10)) = 20 := by
    rw [show (100 : ℝ) = 10 ^ (2 : ℕ) by norm_num, Real.log_pow, hbase]
    field_simp
    ring
  simp only [logFreqs, hsig, hsteps, hfirst]
  rw [show ((30 : ℤ) + 1).toNat = 31 by decide,
      show List.range 31 =
        [0, 1, 2, 3, 4, 5, 6, 7, 8, 9, 10, 11, 12, 13, 14, 15, 16, 17, 18, 19,
         20, 21, 22, 23, 24, 25, 26, 27, 28, 29, 30] from by decide]
  simp only [List.map_cons, List.map_nil, Nat.cast_ofNat, Nat.cast_zero, Nat.cast_one,
    ← Real.rpow_mul (show (0:ℝ) ≤ 10 by norm_num), List.cons.injEq, and_true]
  refine ⟨?_, ?_, ?_, ?_, ?_, ?_, ?_, ?_, ?_, ?_, ?_, ?_, ?_, ?_, ?_, ?_, ?_, ?_, ?_, ?_,
    ?_, ?_, ?_, ?_, ?_, ?_, ?_, ?_, ?_, ?_, ?_⟩
  · rw [show (1 : ℝ) / 10 * ((20 : ℝ) + 0) = ((10 * 2 + 0 : ℕ) : ℝ) / 10 by push_cast; ring,
        sigfigRound_tenpow 2 (by norm_num) 0 (by norm_num), mant0,
        show ((2 : ℕ) : ℤ) - 1 = ((1 : ℕ) : ℤ) by decide, zpow_natCast]
    push_cast
    norm_num
  · rw [show (1 : ℝ) / 10 * ((20 : ℝ) + 1) = ((10 * 2 + 1 : ℕ) : ℝ) / 10 by push_cast; ring,
        sigfigRound_tenpow 2 (by norm_num) 1 (by norm_num), mant1,
        show ((2 : ℕ) : ℤ) - 1 = ((1 : ℕ) : ℤ) by decide, zpow_natCast]
    push_cast
    norm_num
  · rw [show (1 : ℝ) / 10 * ((20 : ℝ) + 2) = ((10 * 2 + 2 : ℕ) : ℝ) / 10 by push_cast; ring,
        sigfigRound_tenpow 2 (by norm_num) 2 (by norm_num), mant2,
        show ((2 : ℕ) : ℤ) - 1 = ((1 : ℕ) : ℤ) by decide, zpow_natCast]
    push_cast
    norm_num
  · rw [show (1 : ℝ) / 10 * ((20 : ℝ) + 3) = ((10 * 2 + 3 : ℕ) : ℝ) / 10 by push_cast; ring,
        sigfigRound_tenpow 2 (by norm_num) 3 (by norm_num), mant3,
        show ((2 : ℕ) : ℤ) - 1 = ((1 : ℕ) : ℤ) by decide, zpow_natCast]
    push_cast
    norm_num
  · rw [show (1 : ℝ) / 10 * ((20 : ℝ) + 4) = ((10 * 2 + 4 : ℕ) : ℝ) / 10 by push_cast; ring,
        sigfigRound_tenpow 2 (by norm_num) 4 (by norm_num), mant4,
        show ((2 : ℕ) : ℤ) - 1 = ((1 : ℕ) : ℤ) by decide, zpow_natCast]
    push_cast
    norm_num
  · rw [show (1 : ℝ) / 10 * ((20 : ℝ) + 5) = ((10 * 2 + 5 : ℕ) : ℝ) / 10 by push_cast; ring,
        sigfigRound_tenpow 2 (by norm_num) 5 (by norm_num), mant5,
        show ((2 : ℕ) : ℤ) - 1 = ((1 : ℕ) : ℤ) by decide, zpow_natCast]
    push_cast
    norm_num
  · rw [show (1 : ℝ) / 10 * ((20 : ℝ) + 6) = ((10 * 2 + 6 : ℕ) : ℝ) / 10 by push_cast; ring,
        sigfigRound_tenpow 2 (by norm_num) 6 (by norm_num), mant6,
        show ((2 : ℕ) : ℤ) - 1 = ((1 : ℕ) : ℤ) by decide, zpow_natCast]
    push_cast
    norm_num
  · rw [show (1 : ℝ) / 10 * ((20 : ℝ) + 7) = ((10 * 2 + 7 : ℕ) : ℝ) / 10 by push_cast; ring,
        sigfigRound_tenpow 2 (by norm_num) 7 (by norm_num), mant7,
        show ((2 : ℕ) : ℤ) - 1 = ((1 : ℕ) : ℤ) by decide, zpow_natCast]
    push_cast
    norm_num
  · rw [show (1 : ℝ) / 10 * ((20 : ℝ) + 8) = ((10 * 2 + 8 : ℕ) : ℝ) / 10 by push_cast; ring,
        sigfigRound_tenpow 2 (by norm_num) 8 (by norm_num), mant8,
        show ((2 : ℕ) : ℤ) - 1 = ((1 : ℕ) : ℤ) by decide, zpow_natCast]
    push_cast
    norm_num
  · rw [show (1 : ℝ) / 10 * ((20 : ℝ) + 9) = ((10 * 2 + 9 : ℕ) : ℝ) / 10 by push_cast; ring,
        sigfigRound_tenpow 2 (by norm_num) 9 (by norm_num), mant9,
        show ((2 : ℕ) : ℤ) - 1 = ((1 : ℕ) : ℤ) by decide, zpow_natCast]
    push_cast
    norm_num
  · rw [show (1 : ℝ) / 10 * ((20 : ℝ) + 10) = ((10 * 3 + 0 : ℕ) : ℝ) / 10 by push_cast; ring,
        sigfigRound_tenpow 3 (by norm_num) 0 (by norm_num), mant0,
        show ((3 : ℕ) : ℤ) - 1 = ((2 : ℕ) : ℤ) by decide, zpow_natCast]
    push_cast
    norm_num
  · rw [show (1 : ℝ) / 10 * ((20 : ℝ) + 11) = ((10 * 3 + 1 : ℕ) : ℝ) / 10 by push_cast; ring,
        sigfigRound_tenpow 3 (by norm_num) 1 (by norm_num), mant1,
        show ((3 : ℕ) : ℤ) - 1 = ((2 : ℕ) : ℤ) by decide, zpow_natCast]
    push_cast
    norm_num
  · rw [show (1 : ℝ) / 10 * ((20 : ℝ) + 12) = ((10 * 3 + 2 : ℕ) : ℝ) / 10 by push_cast; ring,
        sigfigRound_tenpow 3 (by norm_num) 2 (by norm_num), mant2,
        show ((3 : ℕ) : ℤ) - 1 = ((2 : ℕ) : ℤ) by decide, zpow_natCast]
    push_cast
    norm_num
  · rw [show (1 : ℝ) / 10 * ((20 : ℝ) + 13) = ((10 * 3 + 3 : ℕ) : ℝ) / 10 by push_cast; ring,
        sigfigRound_tenpow 3 (by norm_num) 3 (by norm_num), mant3,
        show ((3 : ℕ) : ℤ) - 1 = ((2 : ℕ) : ℤ) by decide, zpow_natCast]
    push_cast
    norm_num
  · rw [show (1 : ℝ) / 10 * ((20 : ℝ) + 14) = ((10 * 3 + 4 : ℕ) : ℝ) / 10 by push_cast; ring,
        sigfigRound_tenpow 3 (by norm_num) 4 (by norm_num), mant4,
        show ((3 : ℕ) : ℤ) - 1 = ((2 : ℕ) : ℤ) by decide, zpow_natCast]
    push_cast
    norm_num
  · rw [show (1 : ℝ) / 10 * ((20 : ℝ) + 15) = ((10 * 3 + 5 : ℕ) : ℝ) / 10 by push_cast; ring,
        sigfigRound_tenpow 3 (by norm_num) 5 (by norm_num), mant5,
        show ((3 : ℕ) : ℤ) - 1 = ((2 : ℕ) : ℤ) by decide, zpow_natCast]
    push_cast
    norm_num
  · rw [show (1 : ℝ) / 10 * ((20 : ℝ) + 16) = ((10 * 3 + 6 : ℕ) : ℝ) / 10 by push_cast; ring,
        sigfigRound_tenpow 3 (by norm_num) 6 (by norm_num), mant6,
        show ((3 : ℕ) : ℤ) - 1 = ((2 : ℕ) : ℤ) by decide, zpow_natCast]
    push_cast
    norm_num
  · rw [show (1 : ℝ) / 10 * ((20 : ℝ) + 17) = ((10 * 3 + 7 : ℕ) : ℝ) / 10 by push_cast; ring,
        sigfigRound_tenpow 3 (by norm_num) 7 (by norm_num), mant7,
        show ((3 : ℕ) : ℤ) - 1 = ((2 : ℕ) : ℤ) by decide, zpow_natCast]
    push_cast
    norm_num
  · rw [show (1 : ℝ) / 10 * ((20 : ℝ) + 18) = ((10 * 3 + 8 : ℕ) : ℝ) / 10 by push_cast; ring,
        sigfigRound_tenpow 3 (by norm_num) 8 (by norm_num), mant8,
        show ((3 : ℕ) : ℤ) - 1 = ((2 : ℕ) : ℤ) by decide, zpow_natCast]
    push_cast
    norm_num
  · rw [show (1 : ℝ) / 10 * ((20 : ℝ) + 19) = ((10 * 3 + 9 : ℕ) : ℝ) / 10 by push_cast; ring,
        sigfigRound_tenpow 3 (by norm_num) 9 (by norm_num), mant9,
        show ((3 : ℕ) : ℤ) - 1 = ((2 : ℕ) : ℤ) by decide, zpow_natCast]
    push_cast
    norm_num
  · rw [show (1 : ℝ) / 10 * ((20 : ℝ) + 20) = ((10 * 4 + 0 : ℕ) : ℝ) / 10 by push_cast; ring,
        sigfigRound_tenpow 4 (by norm_num) 0 (by norm_num), mant0,
        show ((4 : ℕ) : ℤ) - 1 = ((3 : ℕ) : ℤ) by decide, zpow_natCast]
    push_cast
    norm_num
  · rw [show (1 : ℝ) / 10 * ((20 : ℝ) + 21) = ((10 * 4 + 1 : ℕ) : ℝ) / 10 by push_cast; ring,
        sigfigRound_tenpow 4 (by norm_num) 1 (by norm_num), mant1,
        show ((4 : ℕ) : ℤ) - 1 = ((3 : ℕ) : ℤ) by decide, zpow_natCast]
    push_cast
    norm_num
  · rw [show (1 : ℝ) / 10 * ((20 : ℝ) + 22) = ((10 * 4 + 2 : ℕ) : ℝ) / 10 by push_cast; ring,
        sigfigRound_tenpow 4 (by norm_num) 2 (by norm_num), mant2,
        show ((4 : ℕ) : ℤ) - 1 = ((3 : ℕ) : ℤ) by decide, zpow_natCast]
    push_cast
    norm_num
  · rw [show (1 : ℝ) / 10 * ((20 : ℝ) + 23) = ((10 * 4 + 3 : ℕ) : ℝ) / 10 by push_cast; ring,
        sigfigRound_tenpow 4 (by norm_num) 3 (by norm_num), mant3,
        show ((4 : ℕ) : ℤ) - 1 = ((3 : ℕ) : ℤ) by decide, zpow_natCast]
    push_cast
    norm_num
  · rw [show (1 : ℝ) / 10 * ((20 : ℝ) + 24) = ((10 * 4 + 4 : ℕ) : ℝ) / 10 by push_cast; ring,
        sigfigRound_tenpow 4 (by norm_num) 4 (by norm_num), mant4,
        show ((4 : ℕ) : ℤ) - 1 = ((3 : ℕ) : ℤ) by decide, zpow_natCast]
    push_cast
    norm_num
  · rw [show (1 : ℝ) / 10 * ((20 : ℝ) + 25) = ((10 * 4 + 5 : ℕ) : ℝ) / 10 by push_cast; ring,
        sigfigRound_tenpow 4 (by norm_num) 5 (by norm_num), mant5,
        show ((4 : ℕ) : ℤ) - 1 = ((3 : ℕ) : ℤ) by decide, zpow_natCast]
    push_cast
    norm_num
  · rw [show (1 : ℝ) / 10 * ((20 : ℝ) + 26) = ((10 * 4 + 6 : ℕ) : ℝ) / 10 by push_cast; ring,
        sigfigRound_tenpow 4 (by norm_num) 6 (by norm_num), mant6,
        show ((4 : ℕ) : ℤ) - 1 = ((3 : ℕ) : ℤ) by decide, zpow_natCast]
    push_cast
    norm_num
  · rw [show (1 : ℝ) / 10 * ((20 : ℝ) + 27) = ((10 * 4 + 7 : ℕ) : ℝ) / 10 by push_cast; ring,
        sigfigRound_tenpow 4 (by norm_num) 7 (by norm_num), mant7,
        show ((4 : ℕ) : ℤ) - 1 = ((3 : ℕ) : ℤ) by decide, zpow_natCast]
    push_cast
    norm_num
  · rw [show (1 : ℝ) / 10 * ((20 : ℝ) + 28) = ((10 * 4 + 8 : ℕ) : ℝ) / 10 by push_cast; ring,
        sigfigRound_tenpow 4 (by norm_num) 8 (by norm_num), mant8,
        show ((4 : ℕ) : ℤ) - 1 = ((3 : ℕ) : ℤ) by decide, zpow_natCast]
    push_cast
    norm_num
  · rw [show (1 : ℝ) / 10 * ((20 : ℝ) + 29) = ((10 * 4 + 9 : ℕ) : ℝ) / 10 by push_cast; ring,
        sigfigRound_tenpow 4 (by norm_num) 9 (by norm_num), mant9,
        show ((4 : ℕ) : ℤ) - 1 = ((3 : ℕ) : ℤ) by decide, zpow_natCast]
    push_cast
    norm_num
  · rw [show (1 : ℝ) / 10 * ((20 : ℝ) + 30) = ((10 * 5 + 0 : ℕ) : ℝ) / 10 by push_cast; ring,
        sigfigRound_tenpow 5 (by norm_num) 0 (by norm_num), mant0,
        show ((5 : ℕ) : ℤ) - 1 = ((4 : ℕ) : ℤ) by decide, zpow_natCast]
    push_cast
    norm_num

/-- Concrete rounding: eight samples per period at `freq = 1`, `dt = 1/8`. -/
lemma pyRound_eight : pyRound ((1 : ℝ) / 1 / (1 / 8)) = 8 := by
  rw [show (1 : ℝ) / 1 / (1 / 8) = ((8 : ℕ) : ℝ) by norm_num, pyRound_ofNat]
  norm_num

/-- Concrete rounding: one sample per period at `freq = 1`, `dt = 1`. -/
lemma pyRound_one_val : pyRound ((1 : ℝ) / 1 / 1) = 1 := by
  rw [show (1 : ℝ) / 1 / 1 = ((1 : ℕ) : ℝ) by norm_num, pyRound_ofNat]
  norm_num

/-- Success on the indices before `k` gives success on every element of
the length-`k` prefix. -/
lemma take_success {E : Type} (measure : ℝ → Except E (ℝ × ℝ)) (freqs : List ℝ) (k : ℕ)
    (hpre : ∀ i, i < k → ∃ a p, measure (freqs.getD i 0) = .ok (a, p)) :
    ∀ f ∈ freqs.take k, ∃ a p, measure f = .ok (a, p) := by
  intro f hf
  obtain ⟨i, hi, hget⟩ := List.mem_iff_getElem.mp hf
  have hik : i < k := lt_of_lt_of_le hi (by rw [List.length_take]; omega)
  have hlen : i < freqs.length := lt_of_lt_of_le hi (by rw [List.length_take]; omega)
  have hval : freqs.getD i 0 = f := by
    rw [List.getD_eq_getElem freqs 0 hlen, ← hget, List.getElem_take]
  rw [← hval]
  exact hpre i hik

/-- C2, counterexample.  At `phase1 = 170`, `phase2 = -170` the code
computes `((170 - (-170)) + 180) % 360 - 180 = 160 - 180 = -20`, not the
claimed `20`; and at `phase1 = 180`, `phase2 = 0` the result is `-180`,
outside the claimed range `(-180, 180]`. -/
theorem C2_phase_delta_counterexample :
    phase_delta 170 (-170) = -20 ∧
    phase_delta 170 (-170) ≠ 20 ∧
    phase_delta 180 0 = -180 ∧
    ¬(-180 < phase_delta 180 0 ∧ phase_delta 180 0 ≤ 180) := by
  rw [phase_delta_170, phase_delta_edge]
  norm_num

/-- C2, amended.  The phase difference is computed as
`((phase1 - phase2) + 180) mod 360 - 180` and lies in the half-open range
`[-180, 180)`; for `phase1 = 170`, `phase2 = -170` the computed delta is
`-20` (neither `340` nor `-340`). -/
theorem C2_phase_delta_amended :
    (∀ p1 p2 : ℝ, phase_delta p1 p2 = pyMod ((p1 - p2) + 180) 360 - 180 ∧
      -180 ≤ phase_delta p1 p2 ∧ phase_delta p1 p2 < 180) ∧
    phase_delta 170 (-170) = -20 ∧
    phase_delta 170 (-170) ≠ 340 ∧
    phase_delta 170 (-170) ≠ -340 := by
  refine ⟨fun p1 p2 => ⟨rfl, phase_delta_lower p1 p2, phase_delta_upper p1 p2⟩, ?_, ?_, ?_⟩ <;>
    rw [phase_delta_170] <;> norm_num

/-- C3.  The extractor fails with `InsufficientResolution` exactly when
`samples_per_period = round(1/(freq*dt)) < 5`; given enough resolution it
fails with `InsufficientDuration` exactly when
`periods = len(data) / samples_per_period < 1`; otherwise it returns an
amplitude/phase pair. -/
theorem C3_error_conditions (data : List ℝ) (freq dt : ℝ) :
    (dft_at_freq data freq dt = .error (.insufficientResolution dt freq) ↔
      pyRound ((1 / freq) / dt) < 5) ∧
    (5 ≤ pyRound ((1 / freq) / dt) →
      (dft_at_freq data freq dt = .error (.insufficientDuration dt freq) ↔
        data.length / (pyRound ((1 / freq) / dt)).toNat < 1)) ∧
    (5 ≤ pyRound ((1 / freq) / dt) →
      1 ≤ data.length / (pyRound ((1 / freq) / dt)).toNat →
      ∃ a p, dft_at_freq data freq dt = .ok (a, p)) := by
  refine ⟨dft_resolution_iff data freq dt, dft_duration_iff data freq dt, ?_⟩
  intro h5 h1
  exact ⟨_, _, dft_ok data freq dt h5 h1⟩

/-- C3, witness.  Eight zero samples at `freq = 1`, `dt = 1/8` give
`samples_per_period = 8 ≥ 5` and one whole period, hence a successful
extraction; an empty buffer at `freq = 1`, `dt = 1` gives
`samples_per_period = 1 < 5`, hence `InsufficientResolution`. -/
theorem C3_error_conditions_witness :
    (∃ a p, dft_at_freq (List.replicate 8 0) 1 (1/8) = .ok (a, p)) ∧
    dft_at_freq [] 1 1 = .error (.insufficientResolution 1 1) := by
  constructor
  · exact (C3_error_conditions (List.replicate 8 0) 1 (1/8)).2.2
      (by rw [pyRound_eight]; norm_num)
      (by rw [pyRound_eight]; decide)
  · exact (C3_error_conditions [] 1 1).1.mpr (by rw [pyRound_one_val]; norm_num)

/-- C4.  In logarithmic mode the sweep driver generates
`sigfigRound (base^(first+i))` for `i = 0..steps` with
`base = 10^(1/log_stepsdec)`, `steps = ⌈log(fmax/fmin)/log base⌉`,
`first = log fmin / log base`, rounded to `⌈log_stepsdec/10 + 1⌉`
significant figures; for `fmin = 100`, `fmax = 100000`,
`log_stepsdec = 10` the generated sequence is strictly increasing, starts
at 100, ends at `100000 ≤ 100000 * base`, and has length 31. -/
theorem C4_log_sweep :
    (∀ fmin fmax sd : ℝ, freqresp_freqs fmin fmax sd none = logFreqs fmin fmax sd) ∧
    (∀ fmin fmax sd : ℝ, logFreqs fmin fmax sd =
      (List.range ((⌈Real.log (fmax / fmin) / Real.log ((10 : ℝ) ^ ((1 : ℝ) / sd))⌉ + 1)).toNat).map
        fun (x : ℕ) => sigfigRound
          (((10 : ℝ) ^ ((1 : ℝ) / sd)) ^
            (Real.log fmin / Real.log ((10 : ℝ) ^ ((1 : ℝ) / sd)) + (x : ℝ)))
          ⌈sd / 10 + 1⌉) ∧
    logFreqs 100 100000 10 =
      [100, 130, 160, 200, 250, 320, 400, 500, 630, 790,
       1000, 1300, 1600, 2000, 2500, 3200, 4000, 5000, 6300, 7900,
       10000, 13000, 16000, 20000, 25000, 32000, 40000, 50000, 63000, 79000,
       100000] ∧
    (logFreqs 100 100000 10).Sorted (· < ·) ∧
    (logFreqs 100 100000 10).head? = some 100 ∧
    (logFreqs 100 100000 10).getLastD 0 ≤ 100000 * (10 : ℝ) ^ ((1 : ℝ) / 10) ∧
    (logFreqs 100 100000 10).length = 31 := by
  have hbase1 : (1 : ℝ) ≤ (10 : ℝ) ^ ((1 : ℝ) / 10) := by
    have h0 : (10 : ℝ) ^ (0 : ℝ) ≤ (10 : ℝ) ^ ((1 : ℝ) / 10) := by
      rw [Real.rpow_le_rpow_left_iff (by norm_num)]
      norm_num
    rwa [Real.rpow_zero] at h0
  refine ⟨fun _ _ _ => rfl, fun _ _ _ => rfl, logFreqs_default_eval, ?_, ?_, ?_, ?_⟩
  · rw [logFreqs_default_eval, List.Sorted, ← List.chain'_iff_pairwise]
    norm_num [List.chain'_cons, List.chain'_singleton]
  · rw [logFreqs_default_eval]
    rfl
  · rw [logFreqs_default_eval]
    show (100000 : ℝ) ≤ 100000 * (10 : ℝ) ^ ((1 : ℝ) / 10)
    nlinarith
  · rw [logFreqs_default_eval]
    rfl

/-- C10.  With default rounding, `set_channel_scale` sends a member of
the fixed vertical-scale list minimising the distance to the request, and
`set_timebase` likewise for the timebase list; the sent value is always
positive, and a requested scale of 0 results in 0.01 being sent. -/
theorem C10_scale_rounding :
    (∀ s : ℝ, set_channel_scale_sent s ∈ vertical_scales ∧
      (∀ y ∈ vertical_scales, |set_channel_scale_sent s - s| ≤ |y - s|) ∧
      0 < set_channel_scale_sent s) ∧
    (∀ t : ℝ, set_timebase_sent t ∈ timebases ∧
      (∀ y ∈ timebases, |set_timebase_sent t - t| ≤ |y - t|) ∧
      0 < set_timebase_sent t) ∧
    set_channel_scale_sent 0 = 1e-2 ∧
    (0 : ℝ) < 1e-2 := by
  refine ⟨fun s => ⟨set_channel_scale_sent_mem s, set_channel_scale_sent_min s,
      set_channel_scale_sent_pos s⟩,
    fun t => ⟨set_timebase_sent_mem t, set_timebase_sent_min t, set_timebase_sent_pos t⟩,
    set_channel_scale_sent_zero, by norm_num⟩

/-- C1.  With `samples_per_period = round(1/(freq*dt)) ≥ 5` and at least
one whole captured period, the extractor returns amplitude `4 * |c|` and
phase `degrees (arg c)` in `(-180, 180]`, where `c` averages the truncated
samples against a unit-magnitude complex exponential whose phase advances
linearly from 0 to `periods` full turns across the truncated length. -/
theorem C1_dft_extraction (data : List ℝ) (freq dt : ℝ)
    (hfreq : 0 < freq) (hdt : 0 < dt)
    (spp : ℤ) (hspp : spp = pyRound ((1 / freq) / dt)) (h5 : 5 ≤ spp)
    (periods : ℕ) (hper : periods = data.length / spp.toNat) (h1 : 1 ≤ periods)
    (n : ℕ) (hn : n = periods * spp.toNat)
    (c : ℂ)
    (hc : c = (∑ k ∈ Finset.range n,
        Complex.exp (2 * (Real.pi : ℂ) * Complex.I * ((periods : ℂ) * (k : ℂ) / (n : ℂ)))
          * ((data.getD k 0 : ℝ) : ℂ)) / (n : ℂ)) :
    dft_at_freq data freq dt = .ok (4 * Complex.abs c, Complex.arg c * 180 / Real.pi) ∧
    -180 < Complex.arg c * 180 / Real.pi ∧ Complex.arg c * 180 / Real.pi ≤ 180 ∧
    ∀ k : ℕ, Complex.abs
      (Complex.exp (2 * (Real.pi : ℂ) * Complex.I * ((periods : ℂ) * (k : ℂ) / (n : ℂ)))) = 1 := by
  subst hspp hper hn
  have hcc : c = dftCoeff data (data.length / (pyRound ((1 / freq) / dt)).toNat)
      ((data.length / (pyRound ((1 / freq) / dt)).toNat) * (pyRound ((1 / freq) / dt)).toNat) := by
    rw [hc]
    rfl
  rw [hcc]
  refine ⟨dft_ok data freq dt h5 h1, ?_, ?_, ?_⟩
  · rw [lt_div_iff Real.pi_pos]
    linarith [Complex.neg_pi_lt_arg (dftCoeff data
      (data.length / (pyRound ((1 / freq) / dt)).toNat)
      ((data.length / (pyRound ((1 / freq) / dt)).toNat) * (pyRound ((1 / freq) / dt)).toNat))]
  · rw [div_le_iff Real.pi_pos]
    linarith [Complex.arg_le_pi (dftCoeff data
      (data.length / (pyRound ((1 / freq) / dt)).toNat)
      ((data.length / (pyRound ((1 / freq) / dt)).toNat) * (pyRound ((1 / freq) / dt)).toNat))]
  · intro k
    set periods := data.length / (pyRound ((1 / freq) / dt)).toNat
    set n := periods * (pyRound ((1 / freq) / dt)).toNat
    rw [show 2 * (Real.pi : ℂ) * Complex.I * ((periods : ℂ) * (k : ℂ) / (n : ℂ)) =
          ((2 * Real.pi * ((periods : ℝ) * (k : ℝ) / (n : ℝ)) : ℝ) : ℂ) * Complex.I by
        push_cast
        ring]
    exact Complex.abs_exp_ofReal_mul_I _

/-- C1, witness: eight zero samples at `freq = 1`, `dt = 1/8`. -/
theorem C1_dft_extraction_witness :
    ∃ r : ℝ × ℝ, dft_at_freq (List.replicate 8 0) 1 (1/8) = .ok r ∧
      -180 < r.2 ∧ r.2 ≤ 180 := by
  obtain ⟨hok, hlo, hhi, -⟩ := C1_dft_extraction (List.replicate 8 0) 1 (1/8)
    (by norm_num) (by norm_num)
    8 (by rw [pyRound_eight]) (by norm_num)
    1 (by decide) (by norm_num)
    8 (by decide)
    _ rfl
  exact ⟨_, hok, hlo, hhi⟩

/-- C8.  For a buffer periodic with period `samples_per_period`, shifting
by a whole number of periods (with the same truncated length) leaves the
extractor's result — amplitude and phase alike — unchanged; the phase
change is the zero instance of the linear law for whole-period shifts. -/
theorem C8_shift_invariance (f : ℕ → ℝ) (freq dt : ℝ) (spp : ℕ)
    (hspp : spp = (pyRound ((1 / freq) / dt)).toNat)
    (hper : ∀ j, f (j + spp) = f j) (m L : ℕ) :
    dft_at_freq (List.ofFn fun j : Fin L => f (j + m * spp)) freq dt =
      dft_at_freq (List.ofFn fun j : Fin L => f j) freq dt := by
  have key : ∀ j, f (j + m * spp) = f j := by
    intro j
    induction m with
    | zero => simp
    | succ m ih =>
      rw [show j + (m + 1) * spp = j + m * spp + spp by ring, hper, ih]
  have hlist : (List.ofFn fun j : Fin L => f (j + m * spp)) =
      List.ofFn fun j : Fin L => f j :=
    congrArg List.ofFn (funext fun j => key j)
  rw [hlist]

/-- C8, witness: a 8-periodic pulse train shifted by two whole periods. -/
theorem C8_shift_invariance_witness :
    dft_at_freq (List.ofFn fun j : Fin 8 => (if (j + 2 * 8) % 8 = 0 then (1 : ℝ) else 0))
        1 (1/8) =
      dft_at_freq (List.ofFn fun j : Fin 8 => (if (j : ℕ) % 8 = 0 then (1 : ℝ) else 0))
        1 (1/8) :=
  C8_shift_invariance (fun j => if j % 8 = 0 then (1 : ℝ) else 0) 1 (1/8) 8
    (by rw [pyRound_eight]; decide)
    (fun j => by simp [Nat.add_mod_right]) 2 8

/-- C9.  For every sweep point the default measurement requests a
timebase of `1/freq` per division, a fixed memory depth of 120000
samples, and sleeps exactly `delay + 40/freq` between forcing the trigger
and stopping the acquisition. -/
theorem C9_measurement_timing (freq delay : ℝ) (autorange : Bool) (env : ScopeEnv) :
    ScopeCmd.setMemdepth 120000 ∈ measure_response_trace freq delay autorange env ∧
    ScopeCmd.setTimebase (1 / freq) ∈ measure_response_trace freq delay autorange env ∧
    ∃ l₁ l₂, measure_response_trace freq delay autorange env =
      l₁ ++ [ScopeCmd.forceTrigger, ScopeCmd.sleep (delay + 40 / freq),
             ScopeCmd.scopeStop] ++ l₂ := by
  cases autorange with
  | false =>
    refine ⟨?_, ?_, ⟨[.awgSetFrequency 1 freq, .scopeRun, .setMemdepth 120000,
        .setTimebase (1 / freq)], [.fetchDataRaw 1, .fetchDataRaw 2], ?_⟩⟩ <;>
      simp [measure_response_trace]
  | true =>
    refine ⟨?_, ?_, ⟨[.awgSetFrequency 1 freq, .scopeRun, .setMemdepth 120000,
        .setTimebase (1 / freq), .setChannelScale 1 1, .setChannelScale 2 1],
        [.fetchData 1, .fetchData 2,
         .setChannelScale 1 (peakAbs env.screen1 / 4),
         .setChannelScale 2 (peakAbs env.screen2 / 4), .scopeRun,
         .forceTrigger, .sleep (delay + 40 / freq), .scopeStop,
         .fetchDataRaw 1, .fetchDataRaw 2], ?_⟩⟩ <;>
      simp [measure_response_trace]

/-- When both channel extractions succeed, `measure_response` returns the
amplitude ratio and wrapped phase difference. -/
lemma measure_response_ok (freq : ℝ) (env : ScopeEnv) {a1 p1 a2 p2 : ℝ}
    (h1 : dft_at_freq env.raw1 freq env.sampleInterval = .ok (a1, p1))
    (h2 : dft_at_freq env.raw2 freq env.sampleInterval = .ok (a2, p2)) :
    measure_response freq env = .ok (a1 / a2, phase_delta p1 p2) := by
  unfold measure_response
  rw [h1, h2]
  rfl

/-- Concrete rounding: eight samples per period at `freq = 100`,
`dt = 1/800`. -/
lemma pyRound_hundred : pyRound ((1 : ℝ) / 100 / (1 / 800)) = 8 := by
  rw [show (1 : ℝ) / 100 / (1 / 800) = ((8 : ℕ) : ℝ) by norm_num, pyRound_ofNat]
  norm_num

/-- C6.  A sweep whose measurement succeeds at every point yields exactly
one row per frequency, in generation order, with
`dB = 10 * log10 (amplitude ratio)` in each row. -/
theorem C6_sweep_success {E : Type} (measure : ℝ → Except E (ℝ × ℝ)) (freqs : List ℝ)
    (h : ∀ f ∈ freqs, ∃ a p, measure f = .ok (a, p)) :
    (freqresp_rows measure freqs).2 = none ∧
    (freqresp_rows measure freqs).1.length = freqs.length ∧
    ∀ i, i < freqs.length →
      ∀ a p, measure (freqs.getD i 0) = .ok (a, p) →
        (freqresp_rows measure freqs).1.getD i ⟨0, 0, 0, 0⟩ =
          ⟨freqs.getD i 0, a, 10 * Real.logb 10 a, p⟩ :=
  freqresp_rows_ok measure freqs h

/-- C6, witness: three frequencies with a stub measurement returning the
fixed pair `(2, 5)` produce exactly three rows in input order. -/
theorem C6_sweep_success_witness :
    (freqresp_rows (fun _ : ℝ => (Except.ok ((2 : ℝ), (5 : ℝ)) : Except Unit (ℝ × ℝ)))
        [100, 200, 300]).2 = none ∧
    (freqresp_rows (fun _ : ℝ => (Except.ok ((2 : ℝ), (5 : ℝ)) : Except Unit (ℝ × ℝ)))
        [100, 200, 300]).1.length = 3 ∧
    (freqresp_rows (fun _ : ℝ => (Except.ok ((2 : ℝ), (5 : ℝ)) : Except Unit (ℝ × ℝ)))
        [100, 200, 300]).1.getD 0 ⟨0, 0, 0, 0⟩ = ⟨100, 2, 10 * Real.logb 10 2, 5⟩ ∧
    (freqresp_rows (fun _ : ℝ => (Except.ok ((2 : ℝ), (5 : ℝ)) : Except Unit (ℝ × ℝ)))
        [100, 200, 300]).1.getD 1 ⟨0, 0, 0, 0⟩ = ⟨200, 2, 10 * Real.logb 10 2, 5⟩ ∧
    (freqresp_rows (fun _ : ℝ => (Except.ok ((2 : ℝ), (5 : ℝ)) : Except Unit (ℝ × ℝ)))
        [100, 200, 300]).1.getD 2 ⟨0, 0, 0, 0⟩ = ⟨300, 2, 10 * Real.logb 10 2, 5⟩ := by
  obtain ⟨h1, h2, h3⟩ := C6_sweep_success
    (fun _ : ℝ => (Except.ok ((2 : ℝ), (5 : ℝ)) : Except Unit (ℝ × ℝ)))
    [100, 200, 300] (fun f _ => ⟨2, 5, rfl⟩)
  exact ⟨h1, by simpa using h2,
    h3 0 (by norm_num) 2 5 rfl, h3 1 (by norm_num) 2 5 rfl, h3 2 (by norm_num) 2 5 rfl⟩

/-- C7.  If the measurement fails at the `k`-th sweep point (after
succeeding on all earlier points), the whole sweep stops: the rows are
exactly those of the successful length-`k` prefix, no row is emitted for
the failed point, the surfaced error is exactly the one the measurement
raised there, and the offending frequency is the one right after the
emitted rows. -/
theorem C7_sweep_abort {E : Type} (measure : ℝ → Except E (ℝ × ℝ)) (freqs : List ℝ)
    (k : ℕ) (e : E) (hk : k < freqs.length)
    (hpre : ∀ i, i < k → ∃ a p, measure (freqs.getD i 0) = .ok (a, p))
    (hfail : measure (freqs.getD k 0) = .error e) :
    freqresp_rows measure freqs = ((freqresp_rows measure (freqs.take k)).1, some e) ∧
    (freqresp_rows measure freqs).1.length = k ∧
    freqs.getD ((freqresp_rows measure freqs).1.length) 0 = freqs.getD k 0 := by
  have hmain := freqresp_rows_fail measure freqs k e hk hpre hfail
  have hok := freqresp_rows_ok measure (freqs.take k) (take_success measure freqs k hpre)
  have hlen : (freqresp_rows measure freqs).1.length = k := by
    rw [hmain]
    show (freqresp_rows measure (freqs.take k)).1.length = k
    rw [hok.2.1, List.length_take]
    omega
  exact ⟨hmain, hlen, by rw [hlen]⟩

/-- C7, witness: a measurement failing at the second of three
frequencies yields one row and surfaces the raised error. -/
theorem C7_sweep_abort_witness :
    (freqresp_rows
        (fun f : ℝ => if f = 100 then Except.ok ((1 : ℝ), (0 : ℝ)) else Except.error "fail")
        [100, 200, 300]).2 = some "fail" ∧
    (freqresp_rows
        (fun f : ℝ => if f = 100 then Except.ok ((1 : ℝ), (0 : ℝ)) else Except.error "fail")
        [100, 200, 300]).1.length = 1 := by
  obtain ⟨h1, h2, h3⟩ := C7_sweep_abort
    (fun f : ℝ => if f = 100 then Except.ok ((1 : ℝ), (0 : ℝ)) else Except.error "fail")
    [100, 200, 300] 1 "fail" (by norm_num)
    (fun i hi => by
      interval_cases i
      exact ⟨1, 0, by norm_num⟩)
    (by norm_num)
  exact ⟨by rw [h1], h2⟩

/-- C5, counterexample.  When the auto-range capture of channel 1 sees
only zeros (peak 0), the code raises no error and does not leave the
scale unchanged: it requests scale `0/4 = 0`, which the driver rounds to
0.01 — different from the 1.0 previously in effect — and the whole
measurement still completes normally. -/
theorem C5_autorange_counterexample :
    peakAbs [0] = 0 ∧
    set_channel_scale_sent (peakAbs [0] / 4) = 1e-2 ∧
    set_channel_scale_sent 1 = 1 ∧
    set_channel_scale_sent (peakAbs [0] / 4) ≠ set_channel_scale_sent 1 ∧
    ScopeCmd.setChannelScale 1 (peakAbs [0] / 4) ∈
      measure_response_trace 100 1 true
        ⟨[0], [1], List.replicate 8 0, List.replicate 8 0, 1/800⟩ ∧
    ∃ r, measure_response 100
        ⟨[0], [1], List.replicate 8 0, List.replicate 8 0, 1/800⟩ = .ok r := by
  have hpeak : peakAbs [0] = 0 := by
    simp [peakAbs]
  have hsent : set_channel_scale_sent (peakAbs [0] / 4) = 1e-2 := by
    rw [hpeak, show (0 : ℝ) / 4 = 0 by norm_num, set_channel_scale_sent_zero]
  refine ⟨hpeak, hsent, set_channel_scale_sent_one, ?_, ?_, ?_⟩
  · rw [hsent, set_channel_scale_sent_one]
    norm_num
  · simp [measure_response_trace]
  · have h5 : (5 : ℤ) ≤ pyRound ((1 / (100:ℝ)) / (1/800)) := by
      rw [pyRound_hundred]
      norm_num
    have h1 : 1 ≤ (List.replicate 8 (0:ℝ)).length / (pyRound ((1 / (100:ℝ)) / (1/800))).toNat := by
      rw [pyRound_hundred]
      decide
    exact ⟨_, measure_response_ok 100 ⟨[0], [1], List.replicate 8 0, List.replicate 8 0, 1/800⟩
      (dft_ok (List.replicate 8 0) 100 (1/800) h5 h1)
      (dft_ok (List.replicate 8 0) 100 (1/800) h5 h1)⟩

/-- C5, amended.  With a zero auto-range peak the code neither raises an
error nor leaves the scale alone; but the value actually sent is the
nearest entry of the fixed scale list — 0.01 for a zero peak — so a zero
or otherwise invalid scale command is never sent. -/
theorem C5_autorange_amended :
    (∀ peak : ℝ, set_channel_scale_sent (peak / 4) ∈ vertical_scales ∧
      0 < set_channel_scale_sent (peak / 4)) ∧
    set_channel_scale_sent ((0 : ℝ) / 4) = 1e-2 := by
  refine ⟨fun peak => ⟨set_channel_scale_sent_mem _, set_channel_scale_sent_pos _⟩, ?_⟩
  rw [show (0 : ℝ) / 4 = 0 by norm_num, set_channel_scale_sent_zero]

end Labtools

